import Mathlib

/-!
Verification of the configuration subsystem of go-appconfig-example.

The Go source is shallowly embedded: Go `any` values that can reach the
configuration code are modelled by the inductive `GoVal`, Go `error`
results by the structured type `GoErr` (an error value is determined by
the format string and its arguments, so a structured representation is
faithful), and a validator outcome by `VRes`, whose `panics` constructor
models a Go runtime panic.  Go strings are modelled at character
granularity (all strings exercised by the code under test are ASCII).
Finite Go float64 payloads are modelled as exact rationals; the code
under test never computes with float payload values, it only switches on
their dynamic type.  The float64 arithmetic inside `time.ParseDuration`
is emulated operation by operation with exact rational round-to-nearest
(see `roundF64Pos`).
-/

namespace AppConfig

/-- Kinds of Go integer types distinguished by a type switch
(`int, int64, int32, int16, int8, uint, uint64, uint32, uint16, uint8`). -/
inductive IntKind where
  | i | i64 | i32 | i16 | i8 | u | u64 | u32 | u16 | u8
  deriving DecidableEq, Repr

/-- Kinds of Go floating point types (`float32, float64`). -/
inductive FloatKind where
  | f32 | f64
  deriving DecidableEq, Repr

/-- A dynamically typed Go value (`any`) as it can reach the configuration
code: nil, string, bool, an integer of some width, a float, or a
`time.Duration` (a distinct named type in a Go type switch, carried as
nanoseconds).  Go `==` on `any` compares dynamic type and value, which the
derived decidable equality mirrors. -/
inductive GoVal where
  | nil
  | str (s : String)
  | boolean (b : Bool)
  | intv (k : IntKind) (n : Int)
  | floatv (k : FloatKind) (q : Rat)
  | duration (ns : Int)
  deriving DecidableEq, Repr

/-- A structured Go error value.  `msg` is a fixed-text `fmt.Errorf`,
`validValues` is the error `"%s: valid values: %v"` of `Field.Validate`
(determined by the field name and the allowed set), `validExts` is
`"valid extensions: %v"`, `unsupportedExt` is
`"unsupported file extension: %s (supported: %v)"`, and `wrap` is
`fmt.Errorf("%s: %w", pre, e)` style wrapping.  Errors produced by
`fmt.Errorf` are determined by the format string and its arguments, so
this structured representation is faithful up to formatting. -/
inductive GoErr where
  | msg (s : String)
  | validValues (name : String) (vs : List GoVal)
  | validExts (exts : List String)
  | unsupportedExt (ext : String) (exts : List String)
  | wrap (pre : String) (e : GoErr)
  deriving DecidableEq, Repr

/-- Outcome of a Go function returning `error`: nil error, a non-nil
error, or a runtime panic. -/
inductive VRes where
  | ok
  | err (e : GoErr)
  | panics
  deriving DecidableEq, Repr

/-- FieldType is a string in the Go source (`type FieldType string`). -/
abbrev FieldType := String

def FieldTypeString : FieldType := "string"

def FieldTypeBool : FieldType := "bool"

def FieldTypeInt : FieldType := "int"

def FieldTypeFloat : FieldType := "float"

def FieldTypeDuration : FieldType := "duration"

/-- Field from src/unnamed/part_003 lines 26-40 (identical in
src/unnamed/part_004 lines 21-35).  The Go field `Type` is named `typ`
here because `Type` is reserved in Lean.  Defaults are the Go zero
values, so omitted fields in literals behave as in Go composite
literals.  `ValidValues` is `Option` so that a nil slice (`none`) and a
non-nil empty slice (`some []`) stay distinct, as they are in Go.
`ValidateFunc` returns a `VRes` so that a panicking custom validator is
representable. -/
structure Field where
  Name : String := ""
  Group : String := ""
  typ : FieldType := ""
  Default : GoVal := GoVal.nil
  Description : String := ""
  Docstring : String := ""
  Hidden : Bool := false
  Shorthand : String := ""
  ValidValues : Option (List GoVal) := none
  ValidateTag : String := ""
  ValidateFunc : Option (GoVal → VRes) := none
  Example : String := ""
  Deprecated : String := ""

/-- Field.Validate from src/unnamed/part_003 lines 44-72 (identical logic
in src/unnamed/part_004 lines 37-63).  The external go-playground
validator call `validator.New().Var(value, tag)` is an uninterpreted
parameter `tagVar` (the library is not part of this repository); `none`
means the tag check passes, `some e` is its error text. -/
def Field.Validate (tagVar : String → GoVal → Option String) (f : Field)
    (value : GoVal) : VRes :=
  if value = GoVal.nil then VRes.ok
  else
    match f.ValidValues with
    | some vs =>
        if vs.contains value then VRes.ok
        else VRes.err (GoErr.validValues f.Name vs)
    | none =>
        match (if f.ValidateTag ≠ "" then tagVar f.ValidateTag value else none) with
        | some e => VRes.err (GoErr.wrap f.Name (GoErr.msg e))
        | none =>
            match f.ValidateFunc with
            | some vf =>
                match vf value with
                | VRes.ok => VRes.ok
                | VRes.err e => VRes.err (GoErr.wrap f.Name e)
                | VRes.panics => VRes.panics
            | none => VRes.ok

/-- FieldCollection ([]*Field); the pointer indirection is flattened to
values, which is faithful for every operation the claims exercise. -/
abbrev FieldCollection := List Field

/-- Inner loop of FieldCollection.Add from src/unnamed/part_003 lines
87-100: scan for the first descriptor with the same name and replace it
in that slot (the `goto nextField` skips the append); if none matches,
append at the end. -/
def addOneField : FieldCollection → Field → FieldCollection
  | [], f => [f]
  | g :: gs, f =>
      if g.Name = f.Name then f :: gs else g :: addOneField gs f

/-- FieldCollection.Add from src/unnamed/part_003 lines 87-100. -/
def FieldCollection.Add (fc : FieldCollection) (fields : List Field) :
    FieldCollection :=
  fields.foldl addOneField fc

/-- Replacement scan of the variant Add in src/unnamed/part_004 lines
72-82: `*existingField = *field` overwrites the contents of the first
slot whose name matches, then `break`; in a value model the slot becomes
the new field. -/
def replaceFirstField : FieldCollection → Field → FieldCollection
  | [], _ => []
  | g :: gs, f =>
      if g.Name = f.Name then f :: gs else g :: replaceFirstField gs f

/-- FieldCollection.Add variant from src/unnamed/part_004 lines 72-82:
after the replacement scan the loop body falls through and appends the
field unconditionally (there is no `continue` or `goto` guarding the
append). -/
def FieldCollection.AddAlt (fc : FieldCollection) (fields : List Field) :
    FieldCollection :=
  fields.foldl (fun acc f => replaceFirstField acc f ++ [f]) fc

/-- Scan used by `pathExt`: walks the reversed character list of the
path, accumulating the already-seen tail characters; stops without a
result at a path separator, and returns the extension (the dot and the
tail) at the first dot, mirroring the backwards byte loop of Go
`path.Ext`. -/
def pathExtAux : List Char → List Char → Option (List Char)
  | [], _ => none
  | c :: rest, acc =>
      if c = '/' then none
      else if c = '.' then some (c :: acc)
      else pathExtAux rest (c :: acc)

/-- Go `path.Ext`: the suffix beginning at the final dot in the final
slash-separated element of the path; empty if there is no dot. -/
def pathExt (s : String) : String :=
  match pathExtAux s.data.reverse [] with
  | none => ""
  | some cs => String.mk cs

/-- Go `strings.ToLower`, at ASCII granularity (every string the code
under test compares after lowering is ASCII). -/
def asciiToLower (s : String) : String :=
  String.mk (s.data.map Char.toLower)

/-- validConfigFileExts from src/internal/config/validators.go line 11
(identical in src/unnamed/part_006 line 12). -/
def validConfigFileExts : List String :=
  ["yaml", "yml", "json", "toml", "hcl", "env"]

/-- validateConfigFile from src/internal/config/validators.go lines
13-30.  The Go code computes `strings.ToLower(path.Ext(val)[1:])`; when
`path.Ext(val)` is empty (a path with no extension) the slice `""[1:]`
is out of range and the function panics at runtime, which the `panics`
branch records. -/
def validateConfigFile (v : GoVal) : VRes :=
  match v with
  | GoVal.str val =>
      if val = "" then VRes.ok
      else
        let ext := pathExt val
        if ext = "" then VRes.panics
        else
          let cfgFileExt := asciiToLower (ext.drop 1)
          if validConfigFileExts.contains cfgFileExt then VRes.ok
          else VRes.err (GoErr.validExts validConfigFileExts)
  | _ => VRes.err (GoErr.msg "config file must be a string")

/-- validateConfigFile variant from src/unnamed/part_006 lines 16-40:
it lowers the whole extension first, returns an explicit error when the
path has no extension, and only then strips the leading dot. -/
def validateConfigFileAlt (v : GoVal) : VRes :=
  match v with
  | GoVal.str val =>
      if val = "" then VRes.ok
      else
        let lowered := asciiToLower (pathExt val)
        if lowered = "" then
          VRes.err (GoErr.msg "config file must have an extension")
        else
          let cfgFileExt := lowered.drop 1
          if validConfigFileExts.contains cfgFileExt then VRes.ok
          else VRes.err (GoErr.unsupportedExt cfgFileExt validConfigFileExts)
  | _ => VRes.err (GoErr.msg "config file path must be a string")

/-- ASCII decimal digit test used throughout Go `time.ParseDuration`. -/
def isGoDigit (c : Char) : Bool :=
  decide ('0' ≤ c ∧ c ≤ '9')

/-- Unit table of Go `time.ParseDuration` (time/format.go `unitMap`),
values in nanoseconds. -/
def unitMap : List (String × Nat) :=
  [("ns", 1), ("us", 1000), ("µs", 1000), ("μs", 1000),
   ("ms", 1000000), ("s", 1000000000), ("m", 60000000000),
   ("h", 3600000000000)]

/-- Unit lookup `unitMap[u]`. -/
def lookupUnit (u : String) : Option Nat :=
  (unitMap.find? (fun p => p.1 == u)).map (fun p => p.2)

/-- Go `time.leadingInt`: consume leading decimal digits into `x`,
returning `none` on uint64 overflow exactly where the Go code errors
(`x > 1<<63/10` before the multiply-add, `x > 1<<63` after). -/
def leadingInt : List Char → Nat → Option (Nat × List Char)
  | [], x => some (x, [])
  | c :: rest, x =>
      if ¬ isGoDigit c then some (x, c :: rest)
      else if x > 2 ^ 63 / 10 then none
      else
        let x1 := x * 10 + (c.toNat - '0'.toNat)
        if x1 > 2 ^ 63 then none
        else leadingInt rest x1

/-- Structurally recursive base-two logarithm on naturals (largest k
with 2 to the k at most n, and 0 for n below 2); the fuel argument of
`natLog2` keeps it kernel-reducible. -/
def natLog2Aux : Nat → Nat → Nat
  | 0, _ => 0
  | fuel + 1, n => if n ≥ 2 then natLog2Aux fuel (n / 2) + 1 else 0

/-- Base-two logarithm on naturals, with enough fuel for any input. -/
def natLog2 (n : Nat) : Nat :=
  natLog2Aux n n

/-- Integer power of two as a rational (negative exponents allowed). -/
def pow2Q (k : Int) : ℚ :=
  if 0 ≤ k then ((2 : ℚ) ^ k.toNat) else 1 / ((2 : ℚ) ^ (-k).toNat)

/-- Nearest natural number to a non-negative rational, ties to even:
the rounding IEEE-754 applies to a mantissa. -/
def roundHalfEven (r : ℚ) : Nat :=
  let n := r.floor.toNat
  let frac := r - (n : ℚ)
  if frac > 1 / 2 then n + 1
  else if frac < 1 / 2 then n
  else if n % 2 = 0 then n else n + 1

/-- Value of the IEEE-754 binary64 number nearest to a positive
rational (round to nearest, ties to even), as an exact rational: the
exponent k with 2 to the k at most q below 2 to the k+1 is located from
the numerator and denominator logarithms, the 53-bit mantissa is
rounded half-to-even, and the result is mantissa times 2 to the k-52.
This normal-range emulation is exact for every float64 quantity
`time.ParseDuration` produces: all its magnitudes lie far inside the
normal range and below the overflow threshold. -/
def roundF64Pos (q : ℚ) : ℚ :=
  if q ≤ 0 then 0
  else
    let k0 : Int := (natLog2 q.num.toNat : Int) - (natLog2 q.den : Int)
    let k : Int := if pow2Q k0 ≤ q then k0 else k0 - 1
    (roundHalfEven (q * pow2Q (52 - k)) : ℚ) * pow2Q (k - 52)

/-- Go `time.leadingFraction`: consume digits after the decimal point
into `x` with `scale` the float64 power of ten of the consumed digits;
once the accumulator would overflow, further digits are swallowed
without effect on `x` or `scale`.  The Go code keeps `scale` in a
float64 updated by `scale *= 10`; `scale` here is the exact rational
value of that float64, updated by the emulated rounding (the update is
exact up to ten to the 22 and rounds beyond, exactly as binary64
does). -/
def leadingFraction : List Char → Nat → ℚ → Bool → Nat × ℚ × List Char
  | [], x, scale, _ => (x, scale, [])
  | c :: rest, x, scale, overflow =>
      if ¬ isGoDigit c then (x, scale, c :: rest)
      else if overflow then leadingFraction rest x scale overflow
      else if x > (2 ^ 63 - 1) / 10 then leadingFraction rest x scale true
      else
        let y := x * 10 + (c.toNat - '0'.toNat)
        if y > 2 ^ 63 then leadingFraction rest x scale true
        else leadingFraction rest y (roundF64Pos (scale * 10)) overflow

/-- The fraction contribution
`uint64(float64(f) * (float64(unit) / scale))` of Go
`time.ParseDuration`, with each float64 operation emulated exactly: the
conversions of `f` and `unit` round to nearest binary64, the division
and the multiplication round their exact results to nearest binary64,
and the `uint64` conversion truncates toward zero. -/
def goFracContribution (f unit : Nat) (scale : ℚ) : Nat :=
  let fF := roundF64Pos (f : ℚ)
  let q := roundF64Pos (roundF64Pos (unit : ℚ) / scale)
  (roundF64Pos (fF * q)).floor.toNat

/-- Length of the unit token at the head of the remaining input: the
characters up to the next dot or digit, mirroring the unit scan loop of
Go `time.ParseDuration`. -/
def unitLen : List Char → Nat
  | [] => 0
  | c :: rest =>
      if c = '.' then 0
      else if isGoDigit c then 0
      else unitLen rest + 1

/-- Main loop of Go `time.ParseDuration` over the input after the sign:
repeatedly parse `[0-9]*(\.[0-9]*)?unit`, accumulating nanoseconds in
`d` with the same overflow guards as the Go code.  The fraction
contribution is computed by `goFracContribution`, which emulates the
float64 arithmetic of the Go code operation by operation.  Each
successful iteration consumes at least one character, so a fuel of one
more than the input length never runs out. -/
def parseDurLoop : Nat → List Char → Nat → Option Nat
  | 0, _, _ => none
  | _ + 1, [], d => some d
  | fuel + 1, c :: cs, d =>
      if ¬ (c = '.' ∨ isGoDigit c = true) then none
      else
        match leadingInt (c :: cs) 0 with
        | none => none
        | some (v, s1) =>
            let pre : Bool := s1.length != (c :: cs).length
            let step : Nat × ℚ × List Char × Bool :=
              match s1 with
              | '.' :: s1t =>
                  match leadingFraction s1t 0 1 false with
                  | (f, scale, s2) => (f, scale, s2, s2.length != s1t.length)
              | _ => (0, 1, s1, false)
            match step with
            | (f, scale, s2, post) =>
                if pre = false ∧ post = false then none
                else
                  let i := unitLen s2
                  if i = 0 then none
                  else
                    match lookupUnit (String.mk (s2.take i)) with
                    | none => none
                    | some unit =>
                        if v > 2 ^ 63 / unit then none
                        else
                          let v1 := v * unit
                          let v2 :=
                            if f > 0 then v1 + goFracContribution f unit scale
                            else v1
                          if f > 0 ∧ v2 > 2 ^ 63 then none
                          else
                            let d1 := d + v2
                            if d1 > 2 ^ 63 then none
                            else parseDurLoop fuel (s2.drop i) d1

/-- Go `time.ParseDuration`: optional sign, the special case `"0"`, then
the unit-term loop; result in nanoseconds, `none` for every input the Go
function rejects with an error.  Error messages are not carried: the
code under test only checks whether the error is nil. -/
def goParseDuration (s : String) : Option Int :=
  let cs := s.data
  let signStep :=
    match cs with
    | c :: rest =>
        if c = '-' ∨ c = '+' then (decide (c = '-'), rest) else (false, cs)
    | [] => (false, cs)
  match signStep with
  | (neg, s1) =>
      if s1 = ['0'] then some 0
      else if s1 = [] then none
      else
        match parseDurLoop (s1.length + 1) s1 0 with
        | none => none
        | some d =>
            if neg then some (-(d : Int))
            else if d > 2 ^ 63 - 1 then none
            else some (d : Int)

/-- validateDuration from src/internal/config/validators.go lines 32-50:
every integer kind and every float kind is accepted, a string is
accepted when empty or parseable by `time.ParseDuration`, and every
other dynamic type is rejected. -/
def validateDuration (v : GoVal) : VRes :=
  match v with
  | GoVal.intv _ _ => VRes.ok
  | GoVal.floatv _ _ => VRes.ok
  | GoVal.str s =>
      if s = "" then VRes.ok
      else
        match goParseDuration s with
        | some _ => VRes.ok
        | none => VRes.err (GoErr.msg "duration must be a valid duration string")
  | _ => VRes.err (GoErr.msg "duration must be a string or a number")

/-- Go `strings.ToUpper`, at ASCII granularity. -/
def asciiToUpper (s : String) : String :=
  String.mk (s.data.map Char.toUpper)

/-- Modelled from the spec: the environment variable consulted for a
configuration key is `<PREFIX>_<FIELD_NAME with '.' replaced by '_'>`,
uppercased (spec sections 3, 4.3 and 6; the name transformation is set
up in src/internal/config/config.go lines 20-23, the lookup itself
happens inside the third-party viper library, which is not part of this
repository). -/
def envVarName (p : String) (key : String) : String :=
  asciiToUpper (String.mk ((p ++ "_" ++ key).data.map
    (fun c => if c = '.' then '_' else c)))

/-- Modelled from the spec: the layered value store (the third-party
viper library, not part of this repository).  Spec section 3: "a
function resolve(name) -> value over four layered sources with fixed
precedence: explicit set value (highest) > environment variable > parsed
file value > registered default (lowest)".  Layers are association lists
so that every operation is executable; `osEnv` is the process
environment (string valued), the other layers hold configuration
values. -/
structure ValueStore where
  envPrefix : String
  overrides : List (String × GoVal)
  osEnv : List (String × String)
  file : List (String × GoVal)
  defaults : List (String × GoVal)

/-- First-match lookup in an association list of configuration values. -/
def lookupKV (l : List (String × GoVal)) (k : String) : Option GoVal :=
  (l.find? (fun p => p.1 == k)).map (fun p => p.2)

/-- First-match lookup in the process environment. -/
def lookupOsEnv (l : List (String × String)) (k : String) : Option String :=
  (l.find? (fun p => p.1 == k)).map (fun p => p.2)

/-- Modelled from the spec: viper.Get resolution.  Spec section 3 fixes
the precedence explicit override > environment variable > config file >
default, and spec section 4.3 has `read` return the zero/absent value if
the key is entirely unset. -/
def ValueStore.get (s : ValueStore) (key : String) : GoVal :=
  match lookupKV s.overrides key with
  | some v => v
  | none =>
      match lookupOsEnv s.osEnv (envVarName s.envPrefix key) with
      | some e => GoVal.str e
      | none =>
          match lookupKV s.file key with
          | some v => v
          | none =>
              match lookupKV s.defaults key with
              | some v => v
              | none => GoVal.nil

/-- Modelled from the spec: viper.Set stores the value as the new
explicit override, the highest-precedence layer (spec section 4.3). -/
def ValueStore.set (s : ValueStore) (key : String) (v : GoVal) : ValueStore :=
  { s with overrides := (key, v) :: s.overrides }

/-- Default seeding loop of Init from src/internal/config/config.go
lines 26-30: every field with a non-nil default is registered in the
defaults layer. -/
def initDefaults (fields : List Field) : List (String × GoVal) :=
  fields.filterMap (fun f =>
    if f.Default = GoVal.nil then none else some (f.Name, f.Default))

/-- ReadField from src/internal/config/config.go lines 69-71:
`viper.Get(f.Name)`, with the viper state passed explicitly. -/
def ReadField (s : ValueStore) (f : Field) : GoVal :=
  s.get f.Name

/-- WriteField from src/internal/config/config.go lines 95-102: validate
through the field's rules; on success `viper.Set(f.Name, value)`, on
failure return the wrapped validation error with the store untouched.
The pair carries the returned error alongside the (possibly updated)
viper state. -/
def WriteField (tagVar : String → GoVal → Option String) (f : Field)
    (value : GoVal) (s : ValueStore) : VRes × ValueStore :=
  match f.Validate tagVar value with
  | VRes.ok => (VRes.ok, s.set f.Name value)
  | VRes.err e => (VRes.err (GoErr.wrap "validation failed" e), s)
  | VRes.panics => (VRes.panics, s)

/-- Go `strings.HasPrefix s p`, at character granularity. -/
def goHasPrefix (s p : String) : Bool :=
  p.data.isPrefixOf s.data

/-- selectFieldsByPrefix from src/unnamed/part_001 lines 248-262 (the
same loop is inlined in listConfig and describeConfig,
src/cmd/config.go lines 148-161 and 181-194): an empty argument list
selects the whole registry; otherwise, for each argument in turn, every
field whose name starts with it is appended. -/
def selectFieldsByPrefix (fields : FieldCollection) (ps : List String) :
    FieldCollection :=
  if ps = [] then fields
  else ps.foldl
    (fun acc p => acc ++ fields.filter (fun f => goHasPrefix f.Name p)) []

/-! Helper lemmas and concrete fixtures shared by the theorems below. -/

/-- A freshly set key is found first in the overrides layer. -/
theorem lookupKV_cons_self (l : List (String × GoVal)) (k : String)
    (v : GoVal) : lookupKV ((k, v) :: l) k = some v := by
  simp [lookupKV]

/-- Folding appends of per-argument selections equals the flattened map
of the selections, for any accumulator. -/
theorem foldl_append_flatten (g : String → FieldCollection)
    (ps : List String) (acc : FieldCollection) :
    ps.foldl (fun a p => a ++ g p) acc = acc ++ (ps.map g).flatten := by
  induction ps generalizing acc with
  | nil => simp
  | cons p pt ih => simp [List.foldl, ih]

/-- Fixture: a registered descriptor named log.level. -/
def fieldDupOld : Field :=
  { Name := "log.level", Group := "Application", Description := "old" }

/-- Fixture: a second descriptor with the same name log.level. -/
def fieldDupNew : Field :=
  { Name := "log.level", Group := "Application", Description := "new" }

/-- Fixture: a descriptor named alpha. -/
def fieldAlpha : Field := { Name := "alpha" }

/-- Fixture: a descriptor named beta. -/
def fieldBeta : Field := { Name := "beta" }

/-- C1: adding a descriptor whose name matches a registered one is
claimed to replace it in place, leaving length and the order of other
descriptors unchanged, with fresh names appended at the end.  The
part_003 Add does exactly that, but on the same input the part_004
variant Add both replaces the slot and appends the descriptor again, so
the collection grows to two entries sharing the name log.level. -/
theorem claim_C1_addDuplicateEval :
    FieldCollection.Add [fieldDupOld] [fieldDupNew] = [fieldDupNew] ∧
    (FieldCollection.Add [fieldDupOld] [fieldDupNew]).length = 1 ∧
    FieldCollection.AddAlt [fieldDupOld] [fieldDupNew] =
      [fieldDupNew, fieldDupNew] ∧
    (FieldCollection.AddAlt [fieldDupOld] [fieldDupNew]).length = 2 ∧
    ((FieldCollection.AddAlt [fieldDupOld] [fieldDupNew]).map
      (fun f => f.Name)) = ["log.level", "log.level"] :=
  ⟨rfl, rfl, rfl, rfl, rfl⟩

/-- C2: the config-file-extension validator is claimed to accept the
empty path and the allow-listed extensions case-insensitively and to
return an error, without crashing, on any other extension and on any
non-empty path with no extension.  The validator in
src/internal/config/validators.go evaluates `path.Ext(val)[1:]`, which
panics for a path with no extension; the part_006 variant returns the
intended error there.  The allow-listed and rejected extensions behave
as claimed. -/
theorem claim_C2_noExtensionPanics :
    validateConfigFile (GoVal.str "config") = VRes.panics ∧
    validateConfigFile (GoVal.str "") = VRes.ok ∧
    validateConfigFile (GoVal.str "config.yaml") = VRes.ok ∧
    validateConfigFile (GoVal.str "config.TOML") = VRes.ok ∧
    validateConfigFile (GoVal.str "config.exe") =
      VRes.err (GoErr.validExts validConfigFileExts) ∧
    validateConfigFileAlt (GoVal.str "config") =
      VRes.err (GoErr.msg "config file must have an extension") :=
  ⟨rfl, rfl, rfl, rfl, rfl, rfl⟩

/-- C10: the duration validator returns no error on the empty string,
although the empty string is not parseable by time.ParseDuration. -/
theorem claim_C10_emptyStringAccepted :
    validateDuration (GoVal.str "") = VRes.ok ∧
    goParseDuration "" = none :=
  ⟨rfl, rfl⟩

/-- Fixture: a tag interpreter that accepts everything. -/
def tagVarNone : String → GoVal → Option String := fun _ _ => none

/-- Fixture: the allowed values of the log.level field
(src/internal/config/fields_app.go lines 46-53). -/
def logLevelVals : List GoVal :=
  [GoVal.str "debug", GoVal.str "info", GoVal.str "warn", GoVal.str "error"]

/-- Fixture: the log.level field of
src/internal/config/fields_app.go lines 46-53, with its seeded default
"info". -/
def fieldLogLevel : Field :=
  { Name := "log.level", Group := "Application", typ := FieldTypeString,
    Default := GoVal.str "info",
    Description := "The log level to use for the application.",
    ValidValues := some logLevelVals }

/-- Fixture: a store with an environment override, a file value and the
registered default for log.level. -/
def storeEnvFileDef : ValueStore :=
  { envPrefix := "CONFAPP", overrides := [],
    osEnv := [("CONFAPP_LOG_LEVEL", "debug")],
    file := [("log.level", GoVal.str "warn")],
    defaults := initDefaults [fieldLogLevel] }

/-- Fixture: the same store without the environment override. -/
def storeFileDef : ValueStore :=
  { envPrefix := "CONFAPP", overrides := [], osEnv := [],
    file := [("log.level", GoVal.str "warn")],
    defaults := initDefaults [fieldLogLevel] }

/-- Fixture: the same store with only the registered default. -/
def storeDefOnly : ValueStore :=
  { envPrefix := "CONFAPP", overrides := [], osEnv := [], file := [],
    defaults := initDefaults [fieldLogLevel] }

/-- C3: with no explicit override, a state holding an environment value,
a file value and a registered default for the field resolves to the
environment value; without the environment value it resolves to the file
value; with only the default it resolves to the default. -/
theorem claim_C3_precedence (s : ValueStore) (f : Field) (ve : String)
    (vf vd : GoVal)
    (hov : lookupKV s.overrides f.Name = none)
    (hd : lookupKV s.defaults f.Name = some vd) :
    (lookupOsEnv s.osEnv (envVarName s.envPrefix f.Name) = some ve →
      lookupKV s.file f.Name = some vf →
      ReadField s f = GoVal.str ve) ∧
    (lookupOsEnv s.osEnv (envVarName s.envPrefix f.Name) = none →
      lookupKV s.file f.Name = some vf →
      ReadField s f = vf) ∧
    (lookupOsEnv s.osEnv (envVarName s.envPrefix f.Name) = none →
      lookupKV s.file f.Name = none →
      ReadField s f = vd) := by
  refine ⟨fun he hf => ?_, fun he hf => ?_, fun he hf => ?_⟩ <;>
    simp [ReadField, ValueStore.get, hov, he, hf, hd]

/-- Witness for C3 at the concrete log.level stores. -/
theorem claim_C3_precedence_witness :
    ReadField storeEnvFileDef fieldLogLevel = GoVal.str "debug" ∧
    ReadField storeFileDef fieldLogLevel = GoVal.str "warn" ∧
    ReadField storeDefOnly fieldLogLevel = GoVal.str "info" :=
  ⟨(claim_C3_precedence storeEnvFileDef fieldLogLevel "debug"
      (GoVal.str "warn") (GoVal.str "info") rfl rfl).1 rfl rfl,
   (claim_C3_precedence storeFileDef fieldLogLevel "debug"
      (GoVal.str "warn") (GoVal.str "info") rfl rfl).2.1 rfl rfl,
   (claim_C3_precedence storeDefOnly fieldLogLevel "debug"
      (GoVal.str "warn") (GoVal.str "info") rfl rfl).2.2 rfl rfl⟩

/-- C4: in every starting state, writing a value that passes the field's
validation succeeds and a subsequent read of the field returns the
written value. -/
theorem claim_C4_writeReadRoundTrip
    (tagVar : String → GoVal → Option String) (s : ValueStore)
    (f : Field) (v : GoVal) (h : f.Validate tagVar v = VRes.ok) :
    (WriteField tagVar f v s).1 = VRes.ok ∧
    ReadField (WriteField tagVar f v s).2 f = v := by
  simp [WriteField, h, ReadField, ValueStore.get, ValueStore.set,
    lookupKV_cons_self]

/-- Witness for C4: writing the allowed value "debug" to log.level on a
store that previously resolved to the default. -/
theorem claim_C4_writeReadRoundTrip_witness :
    (WriteField tagVarNone fieldLogLevel (GoVal.str "debug")
      storeDefOnly).1 = VRes.ok ∧
    ReadField (WriteField tagVarNone fieldLogLevel (GoVal.str "debug")
      storeDefOnly).2 fieldLogLevel = GoVal.str "debug" :=
  claim_C4_writeReadRoundTrip tagVarNone storeDefOnly fieldLogLevel
    (GoVal.str "debug") rfl

/-- C5: writing a value that fails the field's validation returns the
wrapped validation error and leaves the store unchanged, so a subsequent
read returns what it returned before the failed write. -/
theorem claim_C5_failedWriteUnchanged
    (tagVar : String → GoVal → Option String) (s : ValueStore)
    (f : Field) (v : GoVal) (e : GoErr)
    (h : f.Validate tagVar v = VRes.err e) :
    (WriteField tagVar f v s).1 =
      VRes.err (GoErr.wrap "validation failed" e) ∧
    (WriteField tagVar f v s).2 = s ∧
    ReadField (WriteField tagVar f v s).2 f = ReadField s f := by
  simp [WriteField, h]

/-- Witness for C5: writing the disallowed value "trace" to log.level. -/
theorem claim_C5_failedWriteUnchanged_witness :
    (WriteField tagVarNone fieldLogLevel (GoVal.str "trace")
      storeEnvFileDef).1 =
      VRes.err (GoErr.wrap "validation failed"
        (GoErr.validValues "log.level" logLevelVals)) ∧
    (WriteField tagVarNone fieldLogLevel (GoVal.str "trace")
      storeEnvFileDef).2 = storeEnvFileDef ∧
    ReadField (WriteField tagVarNone fieldLogLevel (GoVal.str "trace")
      storeEnvFileDef).2 fieldLogLevel =
      ReadField storeEnvFileDef fieldLogLevel :=
  claim_C5_failedWriteUnchanged tagVarNone storeEnvFileDef fieldLogLevel
    (GoVal.str "trace") (GoErr.validValues "log.level" logLevelVals) rfl

/-- C6: for a field with a non-empty ValidValues set, Validate accepts
every member and rejects every non-nil non-member with the error that
names the allowed set; the tag and custom rules are not consulted (the
outcome is the same under any tag interpreter), and every field accepts
the nil value. -/
theorem claim_C6_validValuesMembership
    (tagVar : String → GoVal → Option String) (f : Field)
    (vs : List GoVal) (hvv : f.ValidValues = some vs) (_hne : vs ≠ []) :
    (∀ v, vs.contains v = true → f.Validate tagVar v = VRes.ok) ∧
    (∀ v, v ≠ GoVal.nil → vs.contains v = false →
      f.Validate tagVar v = VRes.err (GoErr.validValues f.Name vs)) ∧
    (∀ tagVar2 v, f.Validate tagVar v = f.Validate tagVar2 v) ∧
    (∀ g : Field, g.Validate tagVar GoVal.nil = VRes.ok) := by
  refine ⟨fun v hv => ?_, fun v hnil hv => ?_, fun tagVar2 v => ?_,
    fun g => ?_⟩
  · by_cases hnil : v = GoVal.nil
    · simp [Field.Validate, hnil]
    · have hv2 : v ∈ vs := by simpa using hv
      simp [Field.Validate, hnil, hvv, hv2]
  · have hv2 : v ∉ vs := by simpa using hv
    simp [Field.Validate, hnil, hvv, hv2]
  · by_cases hnil : v = GoVal.nil
    · simp [Field.Validate, hnil]
    · simp [Field.Validate, hnil, hvv]
  · simp [Field.Validate]

/-- Witness for C6 at the log.level field: the member "info" passes, the
non-member "trace" fails naming the allowed set, nil passes. -/
theorem claim_C6_validValuesMembership_witness :
    fieldLogLevel.Validate tagVarNone (GoVal.str "info") = VRes.ok ∧
    fieldLogLevel.Validate tagVarNone (GoVal.str "trace") =
      VRes.err (GoErr.validValues "log.level" logLevelVals) ∧
    fieldLogLevel.Validate tagVarNone GoVal.nil = VRes.ok := by
  have h := claim_C6_validValuesMembership tagVarNone fieldLogLevel
    logLevelVals rfl (by decide)
  exact ⟨h.1 (GoVal.str "info") (by decide),
    h.2.1 (GoVal.str "trace") (by decide) (by decide),
    h.2.2.2 fieldLogLevel⟩

/-- C7 counterexample: the claim says selection returns the matching
descriptors in registry order; with the registry [alpha, beta] and the
argument list ["b", "a"], both descriptors match, so the claim demands
the result [alpha, beta], but the code iterates argument-major and
returns beta before alpha. -/
theorem claim_C7_counterexample :
    selectFieldsByPrefix [fieldAlpha, fieldBeta] ["b", "a"] ≠
      [fieldAlpha, fieldBeta] := by
  intro h
  have h2 := congrArg (List.map (fun f : Field => f.Name)) h
  have h3 : (selectFieldsByPrefix [fieldAlpha, fieldBeta]
      ["b", "a"]).map (fun f : Field => f.Name) = ["beta", "alpha"] := rfl
  rw [h3] at h2
  simp [fieldAlpha, fieldBeta] at h2

/-- C7 amended: an empty argument list returns the full registry;
otherwise the result is, for each argument in the given order, the
registry-order list of descriptors whose name starts with that argument,
concatenated (so a descriptor appears once per matching argument, and
the order across different arguments follows the argument list, not the
registry); for a single argument this is exactly the registry-order
filter. -/
theorem claim_C7_amended (fields : FieldCollection) (ps : List String) :
    (ps = [] → selectFieldsByPrefix fields ps = fields) ∧
    (ps ≠ [] → selectFieldsByPrefix fields ps =
      (ps.map (fun p =>
        fields.filter (fun f => goHasPrefix f.Name p))).flatten) ∧
    (∀ p : String, selectFieldsByPrefix fields [p] =
      fields.filter (fun f => goHasPrefix f.Name p)) := by
  refine ⟨fun h => by simp [selectFieldsByPrefix, h], fun h => ?_,
    fun p => ?_⟩
  · rw [selectFieldsByPrefix, if_neg h,
      foldl_append_flatten (fun p =>
        fields.filter (fun f => goHasPrefix f.Name p)) ps []]
    simp
  · rw [selectFieldsByPrefix, if_neg (by simp),
      foldl_append_flatten (fun p =>
        fields.filter (fun f => goHasPrefix f.Name p)) [p] []]
    simp

/-- Witness for C7 at the concrete registry [alpha, beta]. -/
theorem claim_C7_amended_witness :
    selectFieldsByPrefix [fieldAlpha, fieldBeta] [] =
      [fieldAlpha, fieldBeta] ∧
    selectFieldsByPrefix [fieldAlpha, fieldBeta] ["b", "a"] =
      ((["b", "a"].map (fun p =>
        ([fieldAlpha, fieldBeta] : FieldCollection).filter
          (fun f => goHasPrefix f.Name p)))).flatten ∧
    selectFieldsByPrefix [fieldAlpha, fieldBeta] ["a"] =
      ([fieldAlpha, fieldBeta] : FieldCollection).filter
        (fun f => goHasPrefix f.Name "a") :=
  ⟨(claim_C7_amended [fieldAlpha, fieldBeta] []).1 rfl,
   (claim_C7_amended [fieldAlpha, fieldBeta] ["b", "a"]).2.1 (by decide),
   (claim_C7_amended [fieldAlpha, fieldBeta] ["a"]).2.2 "a"⟩

/-- Fixture: a field whose ValidValues is present but empty, together
with a tag and a custom validator that would both accept. -/
def fieldEmptyVV : Field :=
  { Name := "empty.vv", ValidValues := some ([] : List GoVal),
    ValidateTag := "url", ValidateFunc := some (fun _ => VRes.ok) }

/-- C9: a field whose ValidValues is a present but empty list rejects
every non-nil value with the error naming the (empty) allowed set;
presence of the slot activates the membership check and suppresses the
tag and custom rules, whatever the tag interpreter. -/
theorem claim_C9_emptyValidValues
    (tagVar : String → GoVal → Option String) (f : Field) (v : GoVal)
    (hvv : f.ValidValues = some ([] : List GoVal))
    (hv : v ≠ GoVal.nil) :
    f.Validate tagVar v = VRes.err (GoErr.validValues f.Name []) := by
  simp [Field.Validate, hvv, hv]

/-- Witness for C9: the empty-set field rejects "anything" even though
its tag and custom validator would accept. -/
theorem claim_C9_emptyValidValues_witness :
    fieldEmptyVV.Validate tagVarNone (GoVal.str "anything") =
      VRes.err (GoErr.validValues "empty.vv" []) :=
  claim_C9_emptyValidValues tagVarNone fieldEmptyVV
    (GoVal.str "anything") rfl (by decide)

end AppConfig
